import Mathlib

/-!
Shallow embedding of the WEBAPEX background-audio controller
(src/Project/audio.js).  The browser state the script touches is made
explicit: the audio element fields it reads and writes, the mute-button
label, and the durable storage cells.  JS numbers are modelled as
rationals, absent or NaN values as `none`, and the asynchronous
`audio.play()` promise as an `Except` value whose success or failure is
an input of the model.
-/

namespace WebApex

/-- State the controller manipulates: the audio element (muted flag and
volume), the mute-button label (`muteBtn.textContent`), the parsed
content of the durable storage cells `webapex-audio-volume` and
`webapex-audio-muted`, and a counter of `audio.play()` requests issued
so far. -/
structure Ctrl where
  muted : Bool
  volume : ℚ
  label : String
  storedVolume : Option ℚ
  storedMuted : Option Bool
  playCalls : Nat
  deriving DecidableEq

/-- Line 81 of audio.js: `audio.volume = !isNaN(savedVol) ? savedVol : 0.6`.
The parsed content of `webapex-audio-volume` arrives as an `Option`
(a NaN parse is `none`); a present value is applied without clamping. -/
def initVolume (savedVol : Option ℚ) : ℚ :=
  match savedVol with
  | some v => v
  | none => 0.6

/-- Lines 112-119 of audio.js, the body of `setTime`: if the duration is
truthy (known and nonzero; an unknown NaN duration is `none` here) and
the saved time reaches it, apply `max 0 (duration - 0.1)`, otherwise
apply the saved time unchanged. -/
def appliedRestorePosition (savedTime : ℚ) (duration : Option ℚ) : ℚ :=
  match duration with
  | some d => if d ≠ 0 ∧ savedTime ≥ d then max 0 (d - 0.1) else savedTime
  | none => savedTime

/-- Lines 110-125 of audio.js, `restorePosition`: when a saved session
time was parsed from `webapex-audio-time`, seek to the clamped position
(immediately when metadata is ready, otherwise from the one-shot
`loadedmetadata` listener — the applied value is the same either way);
with no saved time no seek happens. -/
def restorePosition (savedTime : Option ℚ) (duration : Option ℚ) : Option ℚ :=
  match savedTime with
  | some t => some (appliedRestorePosition t duration)
  | none => none

/-- Outcome of one `audio.play()` request: the platform either starts
playback or rejects the promise (autoplay policy). -/
def playAttempt (ok : Bool) : Except String Unit :=
  if ok then Except.ok () else Except.error "autoplay blocked"

/-- Lines 87-107 of audio.js, `tryUnmutedAutoplay`: unmute and request
playback; on success persist the (now false) mute flag and refresh the
label, resolving `true`.  On rejection mute and request playback again;
on success show `Muted`, persist `true`, resolve `false`; on a second
rejection just log and resolve `false`.  Both rejections are caught, so
the resulting promise never rejects. -/
def tryUnmutedAutoplay (ok1 ok2 : Bool) (s : Ctrl) : Except String (Ctrl × Bool) :=
  let s1 : Ctrl := { s with muted := false, playCalls := s.playCalls + 1 }
  match playAttempt ok1 with
  | Except.ok _ =>
      Except.ok ({ s1 with label := if s1.muted then "Muted" else "Mute",
                           storedMuted := some s1.muted }, true)
  | Except.error _ =>
      let s2 : Ctrl := { s1 with muted := true, playCalls := s1.playCalls + 1 }
      match playAttempt ok2 with
      | Except.ok _ =>
          Except.ok ({ s2 with label := "Muted", storedMuted := some true }, false)
      | Except.error _ => Except.ok (s2, false)

/-- Lines 173-180 of audio.js, the volume-slider `input` handler: apply
the parsed slider value to the audio volume, force unmuted, set the
label to `Mute`, persist the volume and `muted = "false"`. -/
def volSliderInput (v : ℚ) (s : Ctrl) : Ctrl :=
  { s with volume := v, muted := false, label := "Mute",
           storedVolume := some v, storedMuted := some false }

/-- Lines 183-188 of audio.js, the mute-button `click` handler: flip the
muted flag, refresh the label, persist the new flag, and request
playback when the result is unmuted. -/
def muteBtnClick (s : Ctrl) : Ctrl :=
  let m := !s.muted
  { s with muted := m, label := if m then "Muted" else "Mute",
           storedMuted := some m,
           playCalls := if m then s.playCalls else s.playCalls + 1 }

/-- A concrete control state used by witnesses: unmuted, default volume,
nothing persisted yet. -/
def sampleCtrl : Ctrl :=
  { muted := false, volume := 0.6, label := "Mute",
    storedVolume := none, storedMuted := none, playCalls := 0 }

/-- C1: for every saved session time t and known duration d > 0, the
position applied by restorePosition is `max 0 (d - 0.1)` when `t ≥ d`
and `t` otherwise; in particular t = 50, d = 40 applies 39.9. -/
theorem restore_position_clamped :
    (∀ t d : ℚ, 0 < d →
      restorePosition (some t) (some d) =
        some (if t ≥ d then max 0 (d - 0.1) else t)) ∧
    restorePosition (some 50) (some 40) = some 39.9 := by
  constructor
  · intro t d hd
    simp only [restorePosition, appliedRestorePosition]
    by_cases h : t ≥ d
    · rw [if_pos ⟨ne_of_gt hd, h⟩, if_pos h]
    · rw [if_neg (by tauto), if_neg h]
  · norm_num [restorePosition, appliedRestorePosition]

/-- C1 witness: the clamp theorem instantiated at t = 50, d = 40. -/
theorem restore_position_clamped_witness :
    restorePosition (some 50) (some 40) =
      some (if (50 : ℚ) ≥ 40 then max 0 ((40 : ℚ) - 0.1) else 50) :=
  restore_position_clamped.1 50 40 (by norm_num)

/-- C3: the autoplay sequencer first unmutes and requests playback; on
success it persists mute = false with label `Mute` and resolves true.
On failure it mutes and retries once; on success it persists
mute = true with label `Muted` and resolves false; after a second
failure it changes nothing further and issues exactly two play
requests.  The result is `Except.ok` for every outcome pair, so no
stage propagates an error to the caller. -/
theorem autoplay_two_stage (ok1 ok2 : Bool) (s : Ctrl) :
    tryUnmutedAutoplay ok1 ok2 s =
      Except.ok
        (if ok1 then
          ({ s with muted := false, label := "Mute", storedMuted := some false,
                    playCalls := s.playCalls + 1 }, true)
        else if ok2 then
          ({ s with muted := true, label := "Muted", storedMuted := some true,
                    playCalls := s.playCalls + 2 }, false)
        else
          ({ s with muted := true, playCalls := s.playCalls + 2 }, false)) := by
  cases ok1 <;> cases ok2 <;> rfl

/-- C8: for every slider value v in [0,1], after the slider input event
the audio volume equals v, the audio is unmuted, the label reads Mute,
and storage holds volume = v and muted = false. -/
theorem slider_postcondition (v : ℚ) (s : Ctrl) (h0 : 0 ≤ v) (h1 : v ≤ 1) :
    (volSliderInput v s).volume = v ∧ (volSliderInput v s).muted = false ∧
    (volSliderInput v s).label = "Mute" ∧
    (volSliderInput v s).storedVolume = some v ∧
    (volSliderInput v s).storedMuted = some false :=
  ⟨rfl, rfl, rfl, rfl, rfl⟩

/-- C8 witness: the slider postcondition at v = 1/2 on a concrete
state. -/
theorem slider_postcondition_witness :
    (volSliderInput (1/2) sampleCtrl).volume = 1/2 ∧
    (volSliderInput (1/2) sampleCtrl).muted = false ∧
    (volSliderInput (1/2) sampleCtrl).label = "Mute" ∧
    (volSliderInput (1/2) sampleCtrl).storedVolume = some (1/2) ∧
    (volSliderInput (1/2) sampleCtrl).storedMuted = some false :=
  slider_postcondition (1/2) sampleCtrl (by norm_num) (by norm_num)

/-- A start state for the C9 counterexample: the audio element is
unmuted and nothing has ever been persisted to
`webapex-audio-muted`. -/
def muteCexCtrl : Ctrl :=
  { muted := false, volume := 0.6, label := "Mute",
    storedVolume := none, storedMuted := none, playCalls := 0 }

/-- C9 counterexample: from an unmuted state with no persisted mute
value, two mute-button presses return the muted flag to false but leave
`webapex-audio-muted` holding "false" where it previously held nothing,
so the persisted value is not restored to what it was before the first
press. -/
theorem mute_toggle_cex :
    (muteBtnClick (muteBtnClick muteCexCtrl)).muted = muteCexCtrl.muted ∧
    (muteBtnClick (muteBtnClick muteCexCtrl)).storedMuted = some false ∧
    muteCexCtrl.storedMuted = none ∧
    (muteBtnClick (muteBtnClick muteCexCtrl)).storedMuted ≠ muteCexCtrl.storedMuted := by
  refine ⟨rfl, rfl, rfl, ?_⟩
  decide

/-- C9 amended: two successive mute-button presses always restore the
audio element muted flag, and they leave the persisted value equal to
the string form of that flag; hence the persisted value is restored
exactly when it already agreed with the flag before the first press. -/
theorem mute_toggle_involution_amended (s : Ctrl) :
    (muteBtnClick (muteBtnClick s)).muted = s.muted ∧
    (muteBtnClick (muteBtnClick s)).storedMuted = some s.muted ∧
    (s.storedMuted = some s.muted →
      (muteBtnClick (muteBtnClick s)).storedMuted = s.storedMuted) := by
  obtain ⟨m, vol, lb, sv, sm, pc⟩ := s
  cases m <;> simp [muteBtnClick] <;> exact fun h => h.symm

/-- C9 amended witness: a muted state whose persisted value agrees with
the flag; two presses restore both. -/
theorem mute_toggle_involution_amended_witness :
    (muteBtnClick (muteBtnClick
      (Ctrl.mk true 0.6 "Muted" none (some true) 0))).muted = true ∧
    (muteBtnClick (muteBtnClick
      (Ctrl.mk true 0.6 "Muted" none (some true) 0))).storedMuted = some true := by
  have h := mute_toggle_involution_amended (Ctrl.mk true 0.6 "Muted" none (some true) 0)
  exact ⟨h.1, h.2.2 rfl⟩

/-- C2 counterexample: a persisted volume value of 2 parses as a number,
so initialization applies it unclamped and the resulting volume exceeds
1, leaving the audio volume outside [0,1]. -/
theorem init_volume_unclamped_cex :
    initVolume (some 2) = 2 ∧ ¬ initVolume (some 2) ≤ 1 := by
  constructor
  · rfl
  · norm_num [initVolume]

/-- C2 amended: initialization applies a present persisted volume
without clamping and falls back to 0.6 when it is absent or invalid, so
the volume lies in [0,1] exactly when the persisted value is absent,
invalid, or itself in [0,1]; the slider handler applied to v in [0,1]
leaves the volume in [0,1]. -/
theorem init_volume_range_amended :
    (∀ q : ℚ, initVolume (some q) = q) ∧
    initVolume none = 0.6 ∧
    (∀ sv : Option ℚ, (0 ≤ initVolume sv ∧ initVolume sv ≤ 1) ↔
      (sv = none ∨ ∃ q : ℚ, sv = some q ∧ 0 ≤ q ∧ q ≤ 1)) ∧
    (∀ (v : ℚ) (s : Ctrl), 0 ≤ v → v ≤ 1 →
      (volSliderInput v s).volume = v ∧
      0 ≤ (volSliderInput v s).volume ∧ (volSliderInput v s).volume ≤ 1) := by
  refine ⟨fun q => rfl, rfl, ?_, ?_⟩
  · intro sv
    cases sv with
    | none => simp [initVolume]; norm_num
    | some q => simp [initVolume]
  · intro v s h0 h1
    exact ⟨rfl, h0, h1⟩

/-- C2 amended witness: a persisted volume of 1/2 is applied as-is and
lies in [0,1]. -/
theorem init_volume_range_amended_witness :
    0 ≤ initVolume (some (1/2)) ∧ initVolume (some (1/2)) ≤ 1 :=
  (init_volume_range_amended.2.2.1 (some (1/2))).2
    (Or.inr ⟨1/2, rfl, by norm_num, by norm_num⟩)

/-- Lines 288-304 of audio.js: the praise phrase table, an object
literal used as a dictionary from lowercase key to spoken phrase,
in source order. -/
def praiseKeyMap : List (String × String) :=
  [("amazing", "Amazing! That was awesome!"),
   ("correct", "Correct! Nice work!"),
   ("goodjob", "Good job! Keep it up!"),
   ("excellent", "Excellent! You\x27re on fire!"),
   ("well done", "Well done! Fantastic!"),
   ("nicework", "Nice work! Brilliant!"),
   ("good", "Good job! 👍"),
   ("brilliant", "Brilliant! Amazing!"),
   ("fantastic", "Fantastic! Wow!"),
   ("superb", "Superb! Great effort!"),
   ("terrific", "Terrific! Nice!"),
   ("outstanding", "Outstanding! Excellent!"),
   ("fabulous", "Fabulous! Well done!"),
   ("great", "Great! Keep going!"),
   ("wonderful", "Wonderful! You did it!")]

/-- `Object.values(praiseKeyMap)`: the phrases in insertion order. -/
def praiseValues : List String := praiseKeyMap.map Prod.snd

/-- The regex replacement `replace(/\s+/g, "")`: drop every whitespace
character of the string. -/
def removeWs (s : String) : String :=
  ⟨s.data.filter (fun c => !c.isWhitespace)⟩

/-- JS `toLowerCase()`: lowercase every character. -/
def jsToLower (s : String) : String :=
  ⟨s.data.map Char.toLower⟩

/-- JS `trim()`: strip leading and trailing whitespace. -/
def jsTrim (s : String) : String :=
  ⟨((s.data.dropWhile Char.isWhitespace).reverse.dropWhile Char.isWhitespace).reverse⟩

/-- A truthy value produced by the property access `praiseKeyMap[k]`:
either the phrase string of an own table key, or a member inherited
from `Object.prototype` (the table is a plain object literal, so access
walks the prototype chain; the inherited functions and the
`__proto__` object are all truthy).  An inherited member is carried by
the property name; `SpeechSynthesisUtterance` stringifies it when it is
spoken. -/
inductive JsValue where
  | str (s : String)
  | inherited (name : String)
  deriving DecidableEq

/-- The `Object.prototype` property names reachable by string indexing
on an object literal (all of them resolve to truthy values). -/
def protoProps : List String :=
  ["constructor", "hasOwnProperty", "isPrototypeOf", "propertyIsEnumerable",
   "toLocaleString", "toString", "valueOf", "__defineGetter__",
   "__defineSetter__", "__lookupGetter__", "__lookupSetter__", "__proto__"]

/-- Property access `praiseKeyMap[k]`: an own key shadows the
prototype; otherwise the access reaches the inherited
`Object.prototype` member of that name; anything else is undefined
(falsy). -/
def praiseLookup (k : String) : Option JsValue :=
  match (praiseKeyMap.find? (fun kv => kv.1 == k)).map Prod.snd with
  | some v => some (JsValue.str v)
  | none => if protoProps.contains k then some (JsValue.inherited k) else none

/-- The key-resolution logic shared by `playPraise` (lines 414-420) and
`playPraiseKey` (lines 396-398): lowercase and trim the argument, try it
as an index into the table, then try it with all whitespace removed,
and otherwise fall back to the original argument text.  A truthy index
hit may be an own phrase or an inherited prototype member. -/
def resolvePhrase (arg : String) : JsValue :=
  let key := jsTrim (jsToLower arg)
  match praiseLookup key with
  | some v => v
  | none =>
      match praiseLookup (removeWs key) with
      | some v => v
      | none => JsValue.str arg

/-- One utterance handed to `_speakPhrase` (the value to be spoken,
stringified by the speech layer, plus the rate, pitch and volume
options it receives). -/
structure Utterance where
  text : JsValue
  rate : ℚ
  pitch : ℚ
  vol : ℚ
  deriving DecidableEq

/-- `_speakPhrase(text)` with no options: rate 1.15, pitch 1.25,
volume 1 (lines 234-236 of audio.js). -/
def uDefault (t : JsValue) : Utterance := ⟨t, 1.15, 1.25, 1⟩

/-- `_speakPhrase(text, { rate: 1.35, pitch: 1.45, volume: 1 })` as used
by `playPraiseKey` (line 400 of audio.js). -/
def uKeyed (t : JsValue) : Utterance := ⟨t, 1.35, 1.45, 1⟩

/-- `phrases[Math.floor(Math.random() * phrases.length)]` (line 410):
the uniformly drawn phrase for a random draw r in [0,1). -/
def randomPhrase (r : ℚ) : String :=
  praiseValues.getD (Rat.floor (r * praiseValues.length)).toNat ""

/-- Lines 404-424 of audio.js, `playPraise`: no-op when muted; a falsy
(absent or empty) argument speaks a random phrase; otherwise the
argument is resolved against the table and spoken.  The result is the
list of utterances passed to the speech layer. -/
def playPraise (muted : Bool) (r : ℚ) (arg : Option String) : List Utterance :=
  if muted then []
  else
    match arg with
    | none => [uDefault (JsValue.str (randomPhrase r))]
    | some a =>
        if a = "" then [uDefault (JsValue.str (randomPhrase r))]
        else [uDefault (resolvePhrase a)]

/-- Lines 392-402 of audio.js, `playPraiseKey`: no-op when muted; a
falsy key delegates to `playPraise()`; otherwise the key is resolved
exactly as in `playPraise` and spoken with the keyed delivery
options. -/
def playPraiseKey (muted : Bool) (r : ℚ) (key : Option String) : List Utterance :=
  if muted then []
  else
    match key with
    | none => playPraise muted r none
    | some k =>
        if k = "" then playPraise muted r none
        else [uKeyed (resolvePhrase k)]

/-- Every key of the table resolves to its own phrase (own keys shadow
the prototype). -/
theorem praiseLookup_of_mem :
    ∀ kv ∈ praiseKeyMap, praiseLookup kv.1 = some (JsValue.str kv.2) := by
  decide

/-- No key of the table is the empty string. -/
theorem praiseKey_ne_empty : ∀ kv ∈ praiseKeyMap, kv.1 ≠ "" := by
  decide

/-- The only table key containing whitespace is "well done". -/
theorem praiseKey_ws : ∀ kv ∈ praiseKeyMap, removeWs kv.1 = kv.1 ∨ kv.1 = "well done" := by
  decide

/-- "welldone" is neither a table key nor a prototype property. -/
theorem praiseLookup_welldone : praiseLookup "welldone" = none := by
  decide

/-- No table key names an `Object.prototype` property. -/
theorem praiseKey_not_proto : ∀ kv ∈ praiseKeyMap, ¬ kv.1 ∈ protoProps := by
  decide

/-- No `Object.prototype` property name contains whitespace. -/
theorem protoProps_no_ws : ∀ p ∈ protoProps, removeWs p = p := by
  decide

/-- A truthy index hit is either the phrase of an own table entry with
the looked-up key, or the inherited prototype member of that name. -/
theorem praiseLookup_cases (k : String) (v : JsValue) (h : praiseLookup k = some v) :
    (∃ v0 : String, v = JsValue.str v0 ∧ (k, v0) ∈ praiseKeyMap) ∨
    (v = JsValue.inherited k ∧ k ∈ protoProps) := by
  unfold praiseLookup at h
  cases hf : praiseKeyMap.find? (fun kv => kv.1 == k) with
  | none =>
      rw [hf] at h
      simp only [Option.map_none'] at h
      by_cases hp : protoProps.contains k
      · rw [if_pos hp] at h
        injection h with h
        exact Or.inr ⟨h.symm, by simpa using hp⟩
      · rw [if_neg hp] at h
        cases h
  | some kv =>
      rw [hf] at h
      simp only [Option.map_some'] at h
      injection h with h
      have hm := List.mem_of_find?_eq_some hf
      have hp := List.find?_some hf
      simp only [beq_iff_eq] at hp
      obtain ⟨k0, v0⟩ := kv
      simp only at hp h
      subst hp
      exact Or.inl ⟨v0, h.symm, hm⟩

/-- C6 counterexample: the key "well done" contains whitespace, so the
variant with an extra internal space resolves to no key (its
whitespace-stripped form "welldone" is not a key either) and is spoken
verbatim instead of as the mapped phrase that the plain key yields;
moreover the argument "constructor" resolves to no table key yet is not
spoken verbatim either — the index hits the inherited
`Object.prototype.constructor`, whose stringified form is spoken. -/
theorem praise_resolution_cex :
    playPraise false 0 (some "well done") =
      [uDefault (JsValue.str "Well done! Fantastic!")] ∧
    playPraise false 0 (some "well  done") = [uDefault (JsValue.str "well  done")] ∧
    ("well  done" : String) ≠ "Well done! Fantastic!" ∧
    playPraise false 0 (some "constructor") =
      [uDefault (JsValue.inherited "constructor")] ∧
    JsValue.inherited "constructor" ≠ JsValue.str "constructor" := by
  refine ⟨rfl, rfl, by decide, rfl, by decide⟩

/-- C6 amended: for every table key k, any argument whose lowercased,
trimmed form equals k (the key itself, case variants, surrounding
whitespace) speaks the mapped phrase; an argument whose lowercased,
trimmed, whitespace-stripped form equals k also speaks the mapped
phrase provided k itself contains no whitespace (internal whitespace
added to "well done" instead falls through); a nonempty argument whose
normalized form hits neither the table nor an inherited
`Object.prototype` member, directly or after whitespace removal, is
spoken verbatim; an argument whose normalized form names an
`Object.prototype` property (such as "constructor" or "__proto__")
speaks the stringified inherited member instead; and playPraiseKey
resolves every nonempty key through the same resolution as playPraise,
falling back to the raw key text. -/
theorem praise_resolution_amended :
    (∀ (s k v : String), (k, v) ∈ praiseKeyMap → jsTrim (jsToLower s) = k →
      ∀ r : ℚ, playPraise false r (some s) = [uDefault (JsValue.str v)]) ∧
    (∀ (s k v : String), (k, v) ∈ praiseKeyMap → removeWs k = k →
      removeWs (jsTrim (jsToLower s)) = k →
      ∀ r : ℚ, playPraise false r (some s) = [uDefault (JsValue.str v)]) ∧
    (∀ s : String, s ≠ "" → praiseLookup (jsTrim (jsToLower s)) = none →
      praiseLookup (removeWs (jsTrim (jsToLower s))) = none →
      ∀ r : ℚ, playPraise false r (some s) = [uDefault (JsValue.str s)]) ∧
    (∀ s : String, jsTrim (jsToLower s) ∈ protoProps →
      ∀ r : ℚ, playPraise false r (some s) =
        [uDefault (JsValue.inherited (jsTrim (jsToLower s)))]) ∧
    (∀ s : String, s ≠ "" → ∀ r : ℚ,
      playPraise false r (some s) = [uDefault (resolvePhrase s)] ∧
      playPraiseKey false r (some s) = [uKeyed (resolvePhrase s)]) := by
  have hne : ∀ (k v : String), (k, v) ∈ praiseKeyMap →
      ∀ s : String, jsTrim (jsToLower s) = k → s ≠ "" := by
    intro k v hkv s hk hs
    subst hs
    have h0 : jsTrim (jsToLower "") = "" := by decide
    rw [h0] at hk
    exact praiseKey_ne_empty (k, v) hkv hk.symm
  refine ⟨?_, ?_, ?_, ?_, ?_⟩
  · intro s k v hkv hk r
    have hs : s ≠ "" := hne k v hkv s hk
    have hl : praiseLookup k = some (JsValue.str v) := praiseLookup_of_mem (k, v) hkv
    simp [playPraise, hs, resolvePhrase, hk, hl]
  · intro s k v hkv hwk hs r
    have hl : praiseLookup k = some (JsValue.str v) := praiseLookup_of_mem (k, v) hkv
    have hs' : s ≠ "" := by
      intro h
      subst h
      have h0 : removeWs (jsTrim (jsToLower "")) = "" := by decide
      rw [h0] at hs
      exact praiseKey_ne_empty (k, v) hkv hs.symm
    cases h1 : praiseLookup (jsTrim (jsToLower s)) with
    | none => simp [playPraise, hs', resolvePhrase, h1, hs, hl]
    | some v0 =>
        rcases praiseLookup_cases _ _ h1 with ⟨v1, hv1, hm⟩ | ⟨hv1, hpk⟩
        · rcases praiseKey_ws (jsTrim (jsToLower s), v1) hm with hw | hw
          · simp only at hw
            have hk : jsTrim (jsToLower s) = k := by rw [← hs, hw]
            simp [playPraise, hs', resolvePhrase, hk, hl]
          · simp only at hw
            have hkw : k = "welldone" := by
              rw [← hs, hw]
              decide
            rw [hkw, praiseLookup_welldone] at hl
            cases hl
        · have hw := protoProps_no_ws _ hpk
          have hk : jsTrim (jsToLower s) = k := by rw [← hs, hw]
          rw [hk] at hpk
          exact absurd hpk (praiseKey_not_proto (k, v) hkv)
  · intro s hs h1 h2 r
    simp [playPraise, hs, resolvePhrase, h1, h2]
  · intro s hp r
    have hs : s ≠ "" := by
      intro h
      subst h
      exact absurd hp (by decide)
    have hfind : praiseKeyMap.find? (fun kv => kv.1 == jsTrim (jsToLower s)) = none := by
      rw [List.find?_eq_none]
      intro kv hkv
      simp only [beq_iff_eq]
      intro he
      exact praiseKey_not_proto kv hkv (by rw [he]; exact hp)
    have hl : praiseLookup (jsTrim (jsToLower s)) =
        some (JsValue.inherited (jsTrim (jsToLower s))) := by
      unfold praiseLookup
      rw [hfind]
      simp only [Option.map_none']
      rw [if_pos (by simpa using hp)]
    simp [playPraise, hs, resolvePhrase, hl]
  · intro s hs r
    simp [playPraise, playPraiseKey, hs]

/-- C6 amended witness: the uppercase variant of "correct" speaks the
phrase mapped to "correct". -/
theorem praise_resolution_amended_witness :
    playPraise false 0 (some "CORRECT") = [uDefault (JsValue.str "Correct! Nice work!")] :=
  praise_resolution_amended.1 "CORRECT" "correct" "Correct! Nice work!"
    (by decide) (by decide) 0

/-- The options object accepted by `playPraiseShuffle` (line 322 of
audio.js): a non-number `interval` or `count` and a non-array exclude
entry are `none`. -/
structure ShuffleOptions where
  interval : Option ℚ
  count : Option ℚ
  excludeKeys : Option (List String)
  excludeValues : Option (List String)
  exclude : Option (List String)
  deriving DecidableEq

/-- A pending timer of the shuffle session: either one scheduled
utterance (capturing the phrase chosen at scheduling time, `none` when
the index fell outside the recorded list) or the cleanup timer. -/
inductive TimerAction where
  | speak (text : Option String)
  | cleanup
  deriving DecidableEq

/-- One entry of `_praiseShuffleState.timers`: its delay in ms and its
action. -/
structure TimerEntry where
  delay : ℚ
  action : TimerAction
  deriving DecidableEq

/-- Lines 309-320 of audio.js, `_praiseShuffleState`: the pending
timers, the running flag, and the phrase list of the last shuffle. -/
structure ShuffleState where
  timers : List TimerEntry
  running : Bool
  lastShuffle : List String
  deriving DecidableEq

/-- The controller returned by `playPraiseShuffle` (lines 379-382):
`stop()` delegates to `_praiseShuffleState.stop`, and `phrases` is a
copy of the recorded phrase list. -/
structure ShuffleHandle where
  phrases : List String
  deriving DecidableEq

/-- Lines 313-319 of audio.js, `_praiseShuffleState.stop`: clear every
pending timer, reset the running flag, empty the recorded phrase list,
and cancel any in-flight utterance. -/
def shuffleStop (_s : ShuffleState) : ShuffleState :=
  { timers := [], running := false, lastShuffle := [] }

/-- One Fisher-Yates pass (lines 356-359 of audio.js): walk i from
`l.length - 1` down to 1, draw j = floor(r * (i + 1)) from the next
random value, and swap positions i and j.  The unconsumed draws are
returned for the second pass. -/
def fyLoop : List ℚ → List String → Nat → List String × List ℚ
  | ds, l, 0 => (l, ds)
  | ds, l, n + 1 =>
      let r := ds.headD 0
      let j := (Rat.floor (r * ((n : ℚ) + 2))).toNat
      let tmp := l.getD (n + 1) ""
      let lj := l.getD j ""
      fyLoop ds.tail ((l.set (n + 1) lj).set j tmp) n

/-- Lines 356-363 of audio.js: the shuffle is run twice over the same
random stream. -/
def doubleShuffle (ds : List ℚ) (l : List String) : List String :=
  let p1 := fyLoop ds l (l.length - 1)
  (fyLoop p1.2 p1.1 (p1.1.length - 1)).1

/-- Lines 334-337 of audio.js: the three exclude lists, each lowercased
and concatenated (a missing list contributes nothing). -/
def allExcludes (o : ShuffleOptions) : List String :=
  (o.excludeKeys.getD []).map jsToLower ++ (o.excludeValues.getD []).map jsToLower ++
    (o.exclude.getD []).map jsToLower

/-- Lines 340-348 of audio.js: for each exclude entry, collect the
lowercased phrases mapped by table keys whose lowercase form equals the
entry, and the entry itself as a literal phrase text. -/
def mappedExcludes (ex : List String) : List String :=
  ex.flatMap (fun e =>
    ((praiseKeyMap.filter (fun kv => jsToLower kv.1 == e)).map (fun kv => jsToLower kv.2)) ++ [e])

/-- Lines 332-350 of audio.js: the phrase values, filtered against the
mapped excludes when any exclude entry was given. -/
def filteredPhrases (o : ShuffleOptions) : List String :=
  let ex := allExcludes o
  if ex.isEmpty then praiseValues
  else praiseValues.filter (fun p => !((mappedExcludes ex).contains (jsToLower p)))

/-- Line 353 of audio.js: if the filter removed every phrase, fall back
to the full value list. -/
def shufflePool (o : ShuffleOptions) : List String :=
  let f := filteredPhrases o
  if f.isEmpty then praiseValues else f

/-- Lines 322-384 of audio.js, `playPraiseShuffle`: no-op returning
undefined when muted; otherwise stop a running session, build and
double-shuffle the phrase pool, record the first `total` phrases,
schedule one utterance timer per phrase plus the cleanup timer, and
return the controller handle.  The random stream `ds` supplies the
Fisher-Yates draws. -/
def playPraiseShuffle (muted : Bool) (o : ShuffleOptions) (ds : List ℚ) (s : ShuffleState) :
    ShuffleState × Option ShuffleHandle :=
  if muted then (s, none)
  else
    let interval := o.interval.getD 700
    let count : Option ℚ := match o.count with
      | some c => if 0 < c then some c else none
      | none => none
    let s0 := if s.running then shuffleStop s else s
    let phrases := doubleShuffle ds (shufflePool o)
    let total : ℚ := match count with
      | some c => min c (phrases.length : ℚ)
      | none => (phrases.length : ℚ)
    let last := phrases.take (Rat.floor total).toNat
    let timers := (List.range (Rat.ceil total).toNat).map
      (fun (i : Nat) => TimerEntry.mk ((i : ℚ) * interval) (TimerAction.speak last[i]?))
    let cleanup := TimerEntry.mk (total * interval + 100) TimerAction.cleanup
    ({ timers := s0.timers ++ timers ++ [cleanup], running := true, lastShuffle := last },
     some ⟨last⟩)

/-- One swap of two in-range positions only rearranges the list, so
membership is preserved downwards. -/
theorem mem_swap (l : List String) (a b : Nat) (ha : a < l.length) (hb : b < l.length) :
    ∀ x ∈ (l.set a (l.getD b "")).set b (l.getD a ""), x ∈ l := by
  intro x hx
  rcases List.mem_or_eq_of_mem_set hx with hx1 | hx2
  · rcases List.mem_or_eq_of_mem_set hx1 with hx3 | hx4
    · exact hx3
    · rw [hx4, List.getD_eq_getElem l "" hb]
      exact List.getElem_mem hb
  · rw [hx2, List.getD_eq_getElem l "" ha]
    exact List.getElem_mem ha

/-- The Fisher-Yates pass preserves the list length. -/
theorem fyLoop_length (ds : List ℚ) (l : List String) (n : Nat) :
    (fyLoop ds l n).1.length = l.length := by
  induction n generalizing ds l with
  | zero => rfl
  | succ n ih =>
      simp only [fyLoop]
      rw [ih]
      simp [List.length_set]

/-- The Fisher-Yates pass consumes one draw per step. -/
theorem fyLoop_rest (ds : List ℚ) (l : List String) (n : Nat) :
    (fyLoop ds l n).2 = ds.drop n := by
  induction n generalizing ds l with
  | zero => rfl
  | succ n ih =>
      simp only [fyLoop]
      rw [ih, ← List.drop_one, List.drop_drop, Nat.one_add]

/-- With in-range draws (every r in [0,1), as `Math.random` returns)
the Fisher-Yates pass introduces no new elements. -/
theorem mem_fyLoop (ds : List ℚ) (l : List String) (n : Nat) (hn : n < l.length)
    (hd : ∀ r ∈ ds, 0 ≤ r ∧ r < 1) : ∀ x ∈ (fyLoop ds l n).1, x ∈ l := by
  induction n generalizing ds l with
  | zero => intro x hx; exact hx
  | succ n ih =>
      intro x hx
      simp only [fyLoop] at hx
      have hr : 0 ≤ ds.headD 0 ∧ ds.headD 0 < 1 := by
        cases ds with
        | nil => constructor <;> norm_num
        | cons a t => exact hd a (List.mem_cons_self a t)
      have hjlt : (Rat.floor (ds.headD 0 * ((n : ℚ) + 2))).toNat < l.length := by
        have h2 : (0 : ℚ) < (n : ℚ) + 2 := by positivity
        have hlt : ds.headD 0 * ((n : ℚ) + 2) < (n : ℚ) + 2 :=
          mul_lt_of_lt_one_left h2 hr.2
        have hfl : Rat.floor (ds.headD 0 * ((n : ℚ) + 2)) < (n : ℤ) + 2 := by
          by_contra hc
          push_neg at hc
          have hle := Rat.le_floor.mp hc
          push_cast at hle
          linarith
        omega
      have hlen' :
          ((l.set (n + 1) (l.getD (Rat.floor (ds.headD 0 * ((n : ℚ) + 2))).toNat "")).set
            (Rat.floor (ds.headD 0 * ((n : ℚ) + 2))).toNat (l.getD (n + 1) "")).length
            = l.length := by
        simp [List.length_set]
      have hx' := ih ds.tail _ (by rw [hlen']; omega)
        (fun r hr' => hd r (List.mem_of_mem_tail hr')) x hx
      exact mem_swap l (n + 1) (Rat.floor (ds.headD 0 * ((n : ℚ) + 2))).toNat hn hjlt x hx'

/-- With in-range draws the double shuffle introduces no new
elements. -/
theorem mem_doubleShuffle (ds : List ℚ) (l : List String) (hl : l ≠ [])
    (hd : ∀ r ∈ ds, 0 ≤ r ∧ r < 1) : ∀ x ∈ doubleShuffle ds l, x ∈ l := by
  intro x hx
  have hlpos : 0 < l.length := List.length_pos.mpr hl
  unfold doubleShuffle at hx
  simp only at hx
  have h1 : (fyLoop ds l (l.length - 1)).1.length = l.length := fyLoop_length ds l _
  have hd2 : ∀ r ∈ (fyLoop ds l (l.length - 1)).2, 0 ≤ r ∧ r < 1 := by
    rw [fyLoop_rest]
    intro r hr
    exact hd r (List.drop_subset _ _ hr)
  have hx1 : x ∈ (fyLoop ds l (l.length - 1)).1 := by
    refine mem_fyLoop _ _ _ ?_ hd2 x hx
    rw [h1]
    omega
  exact mem_fyLoop ds l (l.length - 1) (by omega) hd x hx1

/-- The shuffle pool is never empty: the fallback restores the full
value list. -/
theorem shufflePool_ne_nil (o : ShuffleOptions) : shufflePool o ≠ [] := by
  unfold shufflePool
  by_cases h : (filteredPhrases o).isEmpty
  · rw [if_pos h]
    decide
  · rw [if_neg h]
    simpa using h

/-- Every recorded phrase of an unmuted shuffle call comes from the
double-shuffled pool. -/
theorem mem_lastShuffle (o : ShuffleOptions) (ds : List ℚ) (s : ShuffleState) :
    ∀ p ∈ (playPraiseShuffle false o ds s).1.lastShuffle,
      p ∈ doubleShuffle ds (shufflePool o) := by
  intro p hp
  simp only [playPraiseShuffle] at hp
  exact List.take_subset _ _ hp

/-- C4: invoking playPraiseShuffle (unmuted) while a session is running
behaves exactly as if the previous session had been stopped first, and
stopping clears the pending timers and the recorded phrase list, so at
most one shuffle session is ever active. -/
theorem shuffle_single_session (o : ShuffleOptions) (ds : List ℚ) (s : ShuffleState)
    (h : s.running = true) :
    playPraiseShuffle false o ds s = playPraiseShuffle false o ds (shuffleStop s) ∧
    shuffleStop s = { timers := [], running := false, lastShuffle := [] } := by
  refine ⟨?_, rfl⟩
  simp [playPraiseShuffle, shuffleStop, h]

/-- A concrete running shuffle session used by the C4 witness. -/
def runningShuffle : ShuffleState :=
  { timers := [TimerEntry.mk 0 TimerAction.cleanup], running := true,
    lastShuffle := ["Great! Keep going!"] }

/-- C4 witness: the cancel-first property instantiated on a concrete
running session. -/
theorem shuffle_single_session_witness :
    playPraiseShuffle false (ShuffleOptions.mk none none none none none) [] runningShuffle =
      playPraiseShuffle false (ShuffleOptions.mk none none none none none) []
        (shuffleStop runningShuffle) ∧
    shuffleStop runningShuffle = { timers := [], running := false, lastShuffle := [] } :=
  shuffle_single_session (ShuffleOptions.mk none none none none none) [] runningShuffle rfl

/-- C5: with in-range random draws, when the exclude filter leaves any
phrase, no phrase of the recorded shuffle list is the phrase mapped
from an excluded key and none equals an excluded literal
case-insensitively; when the filter removes every phrase, the pool
falls back to the full unfiltered value table. -/
theorem shuffle_exclusion (o : ShuffleOptions) (ds : List ℚ) (s : ShuffleState)
    (hd : ∀ r ∈ ds, 0 ≤ r ∧ r < 1) :
    (filteredPhrases o ≠ [] →
      ∀ p ∈ (playPraiseShuffle false o ds s).1.lastShuffle,
        (∀ e ∈ allExcludes o, ∀ kv ∈ praiseKeyMap, jsToLower kv.1 = e → p ≠ kv.2) ∧
        (∀ e ∈ allExcludes o, jsToLower p ≠ e)) ∧
    (filteredPhrases o = [] → shufflePool o = praiseValues) := by
  constructor
  · intro hne p hp
    have hpool : shufflePool o = filteredPhrases o := by
      unfold shufflePool
      rw [if_neg (by simpa using hne)]
    have hp1 : p ∈ doubleShuffle ds (shufflePool o) := mem_lastShuffle o ds s p hp
    have hp2 : p ∈ shufflePool o :=
      mem_doubleShuffle ds (shufflePool o) (shufflePool_ne_nil o) hd p hp1
    rw [hpool] at hp2
    by_cases hex : (allExcludes o).isEmpty
    · have hnil : allExcludes o = [] := by simpa using hex
      constructor
      · intro e he
        rw [hnil] at he
        cases he
      · intro e he
        rw [hnil] at he
        cases he
    · unfold filteredPhrases at hp2
      rw [if_neg hex] at hp2
      have hmem := List.mem_filter.mp hp2
      have hnc : jsToLower p ∉ mappedExcludes (allExcludes o) := by
        simpa using hmem.2
      constructor
      · intro e he kv hkv hlow hpe
        apply hnc
        rw [hpe]
        unfold mappedExcludes
        rw [List.mem_flatMap]
        refine ⟨e, he, ?_⟩
        rw [List.mem_append]
        left
        rw [List.mem_map]
        exact ⟨kv, List.mem_filter.mpr ⟨hkv, by simp [hlow]⟩, rfl⟩
      · intro e he hpe
        apply hnc
        unfold mappedExcludes
        rw [List.mem_flatMap]
        refine ⟨e, he, ?_⟩
        rw [List.mem_append]
        right
        simp [hpe]
  · intro h
    unfold shufflePool
    rw [if_pos (by simp [h])]

/-- The exclude option of the C5 witness: exclude the key "amazing". -/
def excludeAmazing : ShuffleOptions :=
  ShuffleOptions.mk none none (some ["amazing"]) none none

/-- C5 witness: excluding the key "amazing" keeps its mapped phrase out
of the recorded shuffle list. -/
theorem shuffle_exclusion_witness :
    "Amazing! That was awesome!" ∉
      (playPraiseShuffle false excludeAmazing [] (ShuffleState.mk [] false [])).1.lastShuffle := by
  intro hmem
  have h := shuffle_exclusion excludeAmazing [] (ShuffleState.mk [] false []) (by simp)
  have h2 := (h.1 (by decide) _ hmem).1 "amazing" (by decide)
    ("amazing", "Amazing! That was awesome!") (by decide) (by decide)
  exact h2 rfl

/-- C7: when the audio element is muted, playPraise and playPraiseKey
pass nothing to the speech layer, and playPraiseShuffle changes no
shuffle state and returns undefined — no call-through occurs at any
mute-gated entry point. -/
theorem praise_mute_gating (r : ℚ) (arg key : Option String) (o : ShuffleOptions)
    (ds : List ℚ) (s : ShuffleState) :
    playPraise true r arg = [] ∧ playPraiseKey true r key = [] ∧
    playPraiseShuffle true o ds s = (s, none) :=
  ⟨rfl, rfl, rfl⟩

/-- C10: a muted playPraiseShuffle call returns undefined — the caller
receives no handle — while an unmuted call returns the handle whose
phrase list is a copy of the recorded shuffle list. -/
theorem shuffle_handle_muted (o : ShuffleOptions) (ds : List ℚ) (s : ShuffleState) :
    playPraiseShuffle true o ds s = (s, none) ∧
    (playPraiseShuffle false o ds s).2 =
      some ⟨(playPraiseShuffle false o ds s).1.lastShuffle⟩ :=
  ⟨rfl, rfl⟩

end WebApex
